import Mathlib

/-!
Verification development for the dreamhost-cli DNS updater (Go).

The program keeps one DNS "A" record pointed at the host's public IP:
each cycle it resolves the public IP (`Client.ExtIP`), lists the
provider's records (`Client.Records`), finds the first A record for the
target hostname, and reconciles by delete-then-create (`Client.Run`).
`main` runs one cycle, fatally on error, and then optionally loops on a
ticker, logging errors.

The embedding below is shallow: each Go function becomes a Lean function
over an explicit environment `Env` that fixes the responses the network
would give, and returns the list of events it emits (network requests and
mutating-operation invocations) together with its Go return value
(`Except String` mirrors Go's `error`).  String error messages follow the
`fmt.Errorf` wrapping in the source.  `net.ParseIP` and `net.IP.String`
(Go 1.17 standard library, as vendored by the program's build) are
modelled byte-for-byte from `net/ip.go` since `ExtIP`'s behaviour is
determined by them.
-/

namespace Dreamhost

/-! ## DNS records and API response shapes (src/main.go) -/

/-- Model of `type Record struct { Type, Record, Value string }`. -/
structure Record where
  type : String
  record : String
  value : String
deriving DecidableEq, Repr

/-- Model of `type Result struct { Result, Data string }` — the decoded body of a
create/delete API response. -/
structure ApiResult where
  result : String
  data : String
deriving DecidableEq, Repr

/-- The anonymous struct decoded in `Client.Records`:
`{ Data json.RawMessage; Result string; Reason string }`.  The later
`json.Unmarshal(r.Data, &records)` step is modelled by `data` being
either the decoded record list or an unmarshalling error message. -/
structure ListBody where
  result : String
  reason : String
  data : Except String (List Record)

/-- Outcome of one HTTP exchange: the `c.Get` call fails (`netErr`),
reading/decoding the body fails (`bodyErr`), or a decoded value comes
back (`ok`). -/
inductive HResp (α : Type) where
  | netErr (msg : String)
  | bodyErr (msg : String)
  | ok (a : α)

/-- The environment of one reconcile cycle: what each upstream endpoint
would answer if called. -/
structure Env where
  extIPResp : HResp String
  listResp : HResp ListBody
  createResp : HResp ApiResult
  deleteResp : HResp ApiResult

/-- Model of `type Client struct { http.Client; dreamhostTok string; dryRun bool }`
(the HTTP client itself lives in `Env`). -/
structure Client where
  dreamhostTok : String
  dryRun : Bool

/-- Events a cycle emits, in order: network requests (`resolveReq`,
`listReq`, `createReq`, `deleteReq`) and invocations of the mutating
operations (`createCall`, `deleteCall`).  In dry-run mode an operation
emits its `..Call` event (it logs its intent) but no `..Req`. -/
inductive Ev where
  | resolveReq
  | listReq
  | createCall (record value : String)
  | createReq (record value : String)
  | deleteCall (record value : String)
  | deleteReq (record value : String)
deriving DecidableEq, Repr

deriving instance DecidableEq for Except

/-! ## Go 1.17 `net.ParseIP`, modelled from `net/ip.go`

IPs are byte lists (`net.IP` is a byte slice); parsing yields the
16-byte form (`parseIPv4` returns `IPv4(a,b,c,d)`, the v4-in-v6
mapping). -/

/-- Go's `net.big = 0xFFFFFF`, the overflow bound of `dtoi`/`xtoi`. -/
def big : Nat := 0xFFFFFF

/-- Loop of `dtoi`: accumulate decimal digits, stopping at the first
non-digit; fails if no digit was read or the value reaches `big`.
Returns (value, characters consumed, ok). -/
def dtoiAux : List Char → Nat → Nat → Nat × Nat × Bool
  | [], n, i => if i = 0 then (0, 0, false) else (n, i, true)
  | ch :: rest, n, i =>
    if '0' ≤ ch ∧ ch ≤ '9' then
      if big ≤ n * 10 + (ch.toNat - '0'.toNat) then (big, i, false)
      else dtoiAux rest (n * 10 + (ch.toNat - '0'.toNat)) (i + 1)
    else if i = 0 then (0, 0, false) else (n, i, true)

/-- Go's `net.dtoi`. -/
def dtoi (s : List Char) : Nat × Nat × Bool := dtoiAux s 0 0

/-- Value of one hex digit, accepting both cases as `xtoi` does. -/
def hexVal (ch : Char) : Option Nat :=
  if '0' ≤ ch ∧ ch ≤ '9' then some (ch.toNat - '0'.toNat)
  else if 'a' ≤ ch ∧ ch ≤ 'f' then some (ch.toNat - 'a'.toNat + 10)
  else if 'A' ≤ ch ∧ ch ≤ 'F' then some (ch.toNat - 'A'.toNat + 10)
  else none

/-- Loop of `xtoi`: accumulate hex digits, stopping at the first
non-hex character; fails if no digit was read or the value reaches
`big`.  Returns (value, characters consumed, ok). -/
def xtoiAux : List Char → Nat → Nat → Nat × Nat × Bool
  | [], n, i => if i = 0 then (n, i, false) else (n, i, true)
  | ch :: rest, n, i =>
    match hexVal ch with
    | none => if i = 0 then (n, i, false) else (n, i, true)
    | some d =>
      if big ≤ n * 16 + d then (0, i, false)
      else xtoiAux rest (n * 16 + d) (i + 1)

/-- Go's `net.xtoi`. -/
def xtoi (s : List Char) : Nat × Nat × Bool := xtoiAux s 0 0

/-- Go's `net.IPv4(a,b,c,d)`: the 16-byte v4-in-v6 representation
(12-byte `v4InV6Prefix` then the four octets). -/
def v4InV6 (bs : List Nat) : List Nat :=
  [0, 0, 0, 0, 0, 0, 0, 0, 0, 0, 0xFF, 0xFF] ++ bs

/-- One dotted-decimal field of `parseIPv4`: `dtoi`, reject values over
`0xFF`, and (Go 1.17) reject a multi-digit field with a leading zero.
Returns the octet and the remaining input. -/
def v4field (s : List Char) : Option (Nat × List Char) :=
  match dtoi s with
  | (n, c, ok) =>
    if ok = false ∨ 0xFF < n then none
    else if 1 < c ∧ s.head? = some '0' then none
    else some (n, s.drop c)

/-- The field loop of `parseIPv4`: `k` fields remain; after the first
field each one must be preceded by a dot; the whole input must be
consumed. -/
def v4fields : Nat → List Char → List Nat → Option (List Nat)
  | 0, s, acc => if s = [] then some acc else none
  | k + 1, s, acc =>
    if s = [] then none
    else
      match (if acc.length = 0 then some s
             else if s.head? = some '.' then some (s.drop 1) else none) with
      | none => none
      | some s2 =>
        match v4field s2 with
        | none => none
        | some (n, rest) => v4fields k rest (acc ++ [n])

/-- Go's `net.parseIPv4` (returning the 16-byte form like `IPv4`). -/
def parseIPv4 (s : List Char) : Option (List Nat) :=
  (v4fields 4 s []).map v4InV6

/-- Lemma: the index argument of `xtoiAux` never decreases. -/
theorem xtoiAux_le (s : List Char) : ∀ n i n' c,
    xtoiAux s n i = (n', c, true) → i ≤ c := by
  induction s with
  | nil =>
    intro n i n' c h
    simp only [xtoiAux] at h
    split at h
    · simp at h
    · simp only [Prod.mk.injEq] at h
      omega
  | cons ch rest ih =>
    intro n i n' c h
    simp only [xtoiAux] at h
    split at h
    · split at h
      · simp at h
      · simp only [Prod.mk.injEq] at h
        omega
    · split at h
      · simp at h
      · have := ih _ _ _ _ h
        omega

/-- A successful `xtoi` consumed at least one character. -/
theorem xtoi_pos (s : List Char) (n c : Nat) (h : xtoi s = (n, c, true)) :
    1 ≤ c := by
  unfold xtoi at h
  cases s with
  | nil => simp [xtoiAux] at h
  | cons ch rest =>
    simp only [xtoiAux] at h
    split at h
    · simp at h
    · split at h
      · simp at h
      · exact xtoiAux_le rest _ _ _ _ h

/-- The main loop of `net.parseIPv6`.  State: remaining input `s`, bytes
already stored `acc` (Go's `ip[0:i]`), and the ellipsis position `ell`
(Go's `ellipsis`, `none` for `-1`).  Returns the state at loop exit or
`break` (`break` paths leave the input empty), or `none` where the Go
code returns `nil`.

`slots` makes the recursion structural: every iteration that re-enters
the loop stores exactly two more bytes, and the loop re-enters only
while fewer than 16 bytes are stored, so from the entry point
(`slots = 8`, `acc = []`) the counter reaches 0 exactly when `acc` is
full; the 0 case therefore repeats the full-`acc` loop exit. -/
def v6loop : Nat → List Char → List Nat → Option Nat →
    Option (List Char × List Nat × Option Nat)
  | 0, s, acc, ell => some (s, acc, ell)
  | slots + 1, s, acc, ell =>
    if 16 ≤ acc.length then some (s, acc, ell)
    else
      match xtoi s with
      | (n, c, ok) =>
        if ok = false ∨ 0xFFFF < n then none
        else if (s.drop c).head? = some '.' then
          if ell = none ∧ acc.length ≠ 12 then none
          else if 12 < acc.length then none
          else
            match parseIPv4 s with
            | none => none
            | some ip4 => some ([], acc ++ ip4.drop 12, ell)
        else
          match s.drop c with
          | [] => some ([], acc ++ [n / 256, n % 256], ell)
          | ch :: rest =>
            if ch ≠ ':' ∨ rest = [] then none
            else if rest.head? = some ':' then
              if ell.isSome then none
              else if rest.drop 1 = [] then
                some ([], acc ++ [n / 256, n % 256], some (acc.length + 2))
              else v6loop slots (rest.drop 1) (acc ++ [n / 256, n % 256])
                (some (acc.length + 2))
            else v6loop slots rest (acc ++ [n / 256, n % 256]) ell

/-- The tail of `net.parseIPv6` after its loop: the whole input must be
consumed; a short parse is completed by expanding the ellipsis with
zeros; a full 16-byte parse must not also carry an ellipsis. -/
def v6finish : Option (List Char × List Nat × Option Nat) → Option (List Nat)
  | none => none
  | some (s, acc, ell) =>
    if s ≠ [] then none
    else if acc.length < 16 then
      match ell with
      | none => none
      | some e =>
        some (acc.take e ++ List.replicate (16 - acc.length) 0 ++ acc.drop e)
    else
      match ell with
      | none => some acc
      | some _ => none

/-- Go's `net.parseIPv6`: optional leading `::` (possibly the whole input),
then the chunk loop and its finishing checks. -/
def parseIPv6 (s : List Char) : Option (List Nat) :=
  if s.head? = some ':' ∧ (s.drop 1).head? = some ':' then
    if s.drop 2 = [] then some (List.replicate 16 0)
    else v6finish (v6loop 8 (s.drop 2) [] (some 0))
  else v6finish (v6loop 8 s [] none)

/-- The dispatch scan of `net.ParseIP`: the first `'.'` or `':'` in the
input decides between the IPv4 and IPv6 grammars. -/
def ipClass : List Char → Option Char
  | [] => none
  | ch :: rest => if ch = '.' ∨ ch = ':' then some ch else ipClass rest

/-- Go's `net.ParseIP` (Go 1.17), on the characters of the input string. -/
def parseIP (s : List Char) : Option (List Nat) :=
  match ipClass s with
  | some '.' => parseIPv4 s
  | some ':' => parseIPv6 s
  | _ => none

/-! ## Go 1.17 `net.IP.String`, modelled from `net/ip.go` -/

/-- Go's `net.isZeros`. -/
def isZeros (l : List Nat) : Bool := l.all (fun b => b == 0)

/-- Go's `net.IP.To4`: 4-byte addresses as-is; 16-byte addresses only in the
v4-in-v6 form, stripped to their last four bytes. -/
def to4 (ip : List Nat) : Option (List Nat) :=
  if ip.length = 4 then some ip
  else if ip.length = 16 ∧ isZeros (ip.take 10) ∧ (ip.drop 10).head? = some 0xFF
      ∧ (ip.drop 11).head? = some 0xFF then
    some (ip.drop 12)
  else none

/-- Go's `net.appendHex`: lowercase hex without leading zeros, `"0"` for 0. -/
def hexStr (n : Nat) : String := String.mk (Nat.toDigits 16 n)

/-- Go's `net.uitoa` on a byte value. -/
def uitoa (n : Nat) : String := toString n

/-- Go's `net.hexString`: two lowercase hex digits per byte. -/
def hexString (bs : List Nat) : String :=
  String.join (bs.map (fun b => String.mk [Nat.digitChar (b / 16), Nat.digitChar (b % 16)]))

/-- The 16-bit groups of a 16-byte address, big-endian pairs. -/
def groups : List Nat → List Nat
  | b1 :: b2 :: rest => (b1 * 256 + b2) :: groups rest
  | _ => []

/-- Length of the zero-group run at the head of the list. -/
def zlen : List Nat → Nat
  | 0 :: rest => 1 + zlen rest
  | _ => 0

/-- The `e0`/`e1` scan of `net.IP.String` in group units: find the
first longest run of zero groups, later runs winning only when strictly
longer; returns (start, length), with the initial sentinel kept when no
zero group exists.  `fuel` makes the recursion structural: every step
consumes at least one group, so fuel equal to the number of groups (8)
never runs out; the fuel-out case repeats the empty-list exit. -/
def findZeroRun : Nat → List Nat → Nat → Nat → Nat → Nat × Nat
  | 0, _, _, e0, blen => (e0, blen)
  | fuel + 1, l, i, e0, blen =>
    match l with
    | [] => (e0, blen)
    | x :: rest =>
      if 0 < zlen (x :: rest) ∧ blen < zlen (x :: rest) then
        findZeroRun fuel ((x :: rest).drop (zlen (x :: rest)))
          (i + zlen (x :: rest)) i (zlen (x :: rest))
      else findZeroRun fuel rest (i + 1) e0 blen

/-- Group at index `i` (the group lists here always have 8 entries). -/
def nthGroup (g : List Nat) (i : Nat) : Nat := ((g.drop i).headD 0)

/-- The print loop of `net.IP.String` for the IPv6 form: groups in hex
separated by `':'`, with `"::"` replacing the chosen zero run (`e0 = 8`
is the no-run sentinel).  `fuel` only bounds the recursion; starting it
at 9 with `i = 0` never exhausts it since `i` strictly increases up
to 8. -/
def renderV6Aux (g : List Nat) (e0 eLen : Nat) : Nat → Nat → String
  | 0, _ => ""
  | fuel + 1, i =>
    if 8 ≤ i then ""
    else if i = e0 then
      "::" ++
        (if 8 ≤ e0 + eLen then ""
         else hexStr (nthGroup g (e0 + eLen)) ++ renderV6Aux g e0 eLen fuel (e0 + eLen + 1))
    else
      (if i = 0 then "" else ":") ++ hexStr (nthGroup g i) ++ renderV6Aux g e0 eLen fuel (i + 1)

/-- Go's `net.IP.String` (Go 1.17): `"<nil>"` for the empty address, dotted
decimal for (v4-in-v6) IPv4 addresses, RFC 5952 text otherwise.  The
zero run is dropped when it is a single group (`e1-e0 <= 2` bytes). -/
def ipString (ip : List Nat) : String :=
  if ip = [] then "<nil>"
  else
    match to4 ip with
    | some [a, b, c, d] => uitoa a ++ "." ++ uitoa b ++ "." ++ uitoa c ++ "." ++ uitoa d
    | _ =>
      if ip.length ≠ 16 then "?" ++ hexString ip
      else
        match findZeroRun 8 (groups ip) 0 8 0 with
        | (e0, blen) =>
          if blen ≤ 1 then renderV6Aux (groups ip) 8 0 9 0
          else renderV6Aux (groups ip) e0 blen 9 0

/-! ## The client operations (src/main.go), as event traces plus Go
return values -/

/-- Model of `Client.ExtIP`: GET the lookup service, read the body, parse it with
`net.ParseIP`; on parse failure the error formats the nil IP (`"%s"` of
a nil `net.IP` prints `<nil>`); on success return `ip.String()`. -/
def Client.ExtIP (c : Client) (env : Env) : List Ev × Except String String :=
  ([Ev.resolveReq],
   match env.extIPResp with
   | .netErr m => .error ("contacting my-external-ip api: " ++ m)
   | .bodyErr m => .error ("reading response: " ++ m)
   | .ok body =>
     match parseIP body.data with
     | none => .error "invalid ip address: <nil>"
     | some ip => .ok (ipString ip))

/-- Model of `Client.Records`: GET the list endpoint; a transport error is
returned unwrapped; a non-`"success"` result becomes
`errors.New(r.Reason)`; otherwise the `data` payload is unmarshalled
into the record list. -/
def Client.Records (c : Client) (env : Env) :
    List Ev × Except String (List Record) :=
  ([Ev.listReq],
   match env.listResp with
   | .netErr m => .error m
   | .bodyErr m => .error ("unmarshaling json: " ++ m)
   | .ok b =>
     if b.result ≠ "success" then .error b.reason
     else
       match b.data with
       | .error m => .error ("unmarshalling json records: " ++ m)
       | .ok recs => .ok recs)

/-- Model of `Client.Create`: in dry-run mode only log intent and return `nil`;
otherwise GET the add-record endpoint and fail unless the decoded
`result` is `"success"`. -/
def Client.Create (c : Client) (env : Env) (record address : String) :
    List Ev × Except String Unit :=
  if c.dryRun then ([Ev.createCall record address], .ok ())
  else
    ([Ev.createCall record address, Ev.createReq record address],
     match env.createResp with
     | .netErr m => .error ("contacting api: " ++ m)
     | .bodyErr m => .error ("unmarshaling response: " ++ m)
     | .ok r =>
       if r.result ≠ "success" then
         .error ("record creation failed with " ++ r.result ++ ": " ++ r.data)
       else .ok ())

/-- Model of `Client.Delete`: in dry-run mode only log intent and return `nil`;
otherwise GET the remove-record endpoint and fail unless the decoded
`result` is `"success"`. -/
def Client.Delete (c : Client) (env : Env) (record address : String) :
    List Ev × Except String Unit :=
  if c.dryRun then ([Ev.deleteCall record address], .ok ())
  else
    ([Ev.deleteCall record address, Ev.deleteReq record address],
     match env.deleteResp with
     | .netErr m => .error ("contacting api: " ++ m)
     | .bodyErr m => .error ("unmarshaling response: " ++ m)
     | .ok r =>
       if r.result ≠ "success" then
         .error ("record removal failed with " ++ r.result ++ ": " ++ r.data)
       else .ok ())

/-- The record-scanning loop of `Client.Run`: the first record with
`Type == "A"` and `Record == record`, if any (`break` on the first
hit). -/
def findMatch (records : List Record) (record : String) : Option Record :=
  match records with
  | [] => none
  | r :: rest =>
    if r.type = "A" ∧ r.record = record then some r else findMatch rest record

/-- The shared tail of `Client.Run`: call `Create` and wrap its error. -/
def createStep (c : Client) (env : Env) (record ip : String) (tr : List Ev) :
    List Ev × Except String Unit :=
  match Client.Create c env record ip with
  | (t, .error e) =>
    (tr ++ t, .error ("creating A record " ++ record ++ " -> " ++ ip ++ ": " ++ e))
  | (t, .ok _) => (tr ++ t, .ok ())

/-- Model of `Client.Run`: resolve the public IP, list the records, find the
first matching A record, and reconcile — return `nil` if it already
matches, otherwise delete it (aborting on failure) and create the new
one. -/
def Client.Run (c : Client) (env : Env) (record : String) :
    List Ev × Except String Unit :=
  match Client.ExtIP c env with
  | (t1, .error e) => (t1, .error ("checking our public IP address: " ++ e))
  | (t1, .ok ip) =>
    match Client.Records c env with
    | (t2, .error e) =>
      (t1 ++ t2, .error ("getting dns records from dreamhost: " ++ e))
    | (t2, .ok records) =>
      match findMatch records record with
      | some m =>
        if m.value = ip then (t1 ++ t2, .ok ())
        else
          match Client.Delete c env m.record m.value with
          | (t3, .error e) =>
            (t1 ++ t2 ++ t3, .error ("deleting A record " ++ record ++ ": " ++ e))
          | (t3, .ok _) => createStep c env record ip (t1 ++ t2 ++ t3)
      | none => createStep c env record ip (t1 ++ t2)

/-! ## The scheduler (`main`), after flag validation

Each cycle's outcome is drawn from a list (first run, then one entry
per tick).  Events record each invocation of `cli.Run` and what `main`
does with its error. -/

/-- Scheduler events: a `cli.Run` invocation, `log.Fatal` (non-zero
process exit), `log.Error` (logged, loop continues), and the
`os.Exit(0)` of single-shot mode. -/
inductive SchedEv where
  | runCycle
  | fatalExit (msg : String)
  | logError (msg : String)
  | exitZero
deriving DecidableEq, Repr

/-- The ticker loop of `main`: each tick runs a cycle and logs (but
does not exit on) its error. -/
def tickLoop : List (Except String Unit) → List SchedEv
  | [] => []
  | .error e :: rest => SchedEv.runCycle :: SchedEv.logError e :: tickLoop rest
  | .ok _ :: rest => SchedEv.runCycle :: tickLoop rest

/-- Model of `main` after flag validation: run one cycle, `log.Fatal` on its
error; with a zero interval exit 0, otherwise enter the ticker loop.
`interval` is the parsed `-sync.interval` (validation has rejected
negatives), `results` the cycle outcomes the environment will produce
(head = first run, tail = one per tick reached). -/
def mainSched (interval : Nat) (results : List (Except String Unit)) : List SchedEv :=
  match results with
  | [] => []
  | .error e :: _ => [SchedEv.runCycle, SchedEv.fatalExit e]
  | .ok _ :: rest =>
    if interval = 0 then [SchedEv.runCycle, SchedEv.exitZero]
    else SchedEv.runCycle :: tickLoop rest

/-! ## Helper lemmas -/

/-- Lemma: `ExtIP` always emits exactly the one resolve request. -/
theorem ExtIP_fst (c : Client) (env : Env) :
    Client.ExtIP c env = ([Ev.resolveReq], (Client.ExtIP c env).2) := rfl

/-- Lemma: `Records` always emits exactly the one list request. -/
theorem Records_fst (c : Client) (env : Env) :
    Client.Records c env = ([Ev.listReq], (Client.Records c env).2) := rfl

/-- The trace of a `Create` invocation: the call event, followed by the
network request unless dry-run is on. -/
theorem Create_fst (c : Client) (env : Env) (record address : String) :
    (Client.Create c env record address).1 =
      Ev.createCall record address ::
        (if c.dryRun then [] else [Ev.createReq record address]) := by
  cases hd : c.dryRun <;> simp [Client.Create, hd]

/-- The trace of a `Delete` invocation: the call event, followed by the
network request unless dry-run is on. -/
theorem Delete_fst (c : Client) (env : Env) (record address : String) :
    (Client.Delete c env record address).1 =
      Ev.deleteCall record address ::
        (if c.dryRun then [] else [Ev.deleteReq record address]) := by
  cases hd : c.dryRun <;> simp [Client.Delete, hd]

/-- Lemma: `createStep` appends the `Create` trace to the given prior trace. -/
theorem createStep_fst (c : Client) (env : Env) (record ip : String)
    (tr : List Ev) :
    (createStep c env record ip tr).1 = tr ++ (Client.Create c env record ip).1 := by
  unfold createStep
  rcases h : Client.Create c env record ip with ⟨t, res⟩
  cases res <;> simp

/-- Lemma: `createStep` succeeds when the `Create` it wraps does. -/
theorem createStep_ok (c : Client) (env : Env) (record ip : String)
    (tr : List Ev) (h : (Client.Create c env record ip).2 = .ok ()) :
    (createStep c env record ip tr).2 = .ok () := by
  unfold createStep
  rcases hc : Client.Create c env record ip with ⟨t, res⟩
  rw [hc] at h
  simp only [] at h
  rw [h]

/-- Shape of `Run` when IP resolution fails: only the resolve request, error
wrapped. -/
theorem Run_extip_error (c : Client) (env : Env) (record e : String)
    (hip : (Client.ExtIP c env).2 = .error e) :
    Client.Run c env record =
      ([Ev.resolveReq], .error ("checking our public IP address: " ++ e)) := by
  have h1 : Client.ExtIP c env = ([Ev.resolveReq], .error e) := by
    rw [ExtIP_fst, hip]
  unfold Client.Run
  rw [h1]

/-- Shape of `Run` when listing fails: resolve and list requests only, error
wrapped. -/
theorem Run_records_error (c : Client) (env : Env) (record ip e : String)
    (hip : (Client.ExtIP c env).2 = .ok ip)
    (hrecs : (Client.Records c env).2 = .error e) :
    Client.Run c env record =
      ([Ev.resolveReq, Ev.listReq],
       .error ("getting dns records from dreamhost: " ++ e)) := by
  have h1 : Client.ExtIP c env = ([Ev.resolveReq], .ok ip) := by
    rw [ExtIP_fst, hip]
  have h2 : Client.Records c env = ([Ev.listReq], .error e) := by
    rw [Records_fst, hrecs]
  unfold Client.Run
  rw [h1, h2]
  simp

/-- Shape of `Run` with no matching record: straight to the create step. -/
theorem Run_no_match (c : Client) (env : Env) (record ip : String)
    (recs : List Record)
    (hip : (Client.ExtIP c env).2 = .ok ip)
    (hrecs : (Client.Records c env).2 = .ok recs)
    (hm : findMatch recs record = none) :
    Client.Run c env record =
      createStep c env record ip [Ev.resolveReq, Ev.listReq] := by
  have h1 : Client.ExtIP c env = ([Ev.resolveReq], .ok ip) := by
    rw [ExtIP_fst, hip]
  have h2 : Client.Records c env = ([Ev.listReq], .ok recs) := by
    rw [Records_fst, hrecs]
  unfold Client.Run
  rw [h1, h2]
  simp [hm]

/-- Shape of `Run` when the matching record already has the resolved IP: no
mutating step at all. -/
theorem Run_match_eq (c : Client) (env : Env) (record ip : String)
    (recs : List Record) (m : Record)
    (hip : (Client.ExtIP c env).2 = .ok ip)
    (hrecs : (Client.Records c env).2 = .ok recs)
    (hm : findMatch recs record = some m)
    (hv : m.value = ip) :
    Client.Run c env record = ([Ev.resolveReq, Ev.listReq], .ok ()) := by
  have h1 : Client.ExtIP c env = ([Ev.resolveReq], .ok ip) := by
    rw [ExtIP_fst, hip]
  have h2 : Client.Records c env = ([Ev.listReq], .ok recs) := by
    rw [Records_fst, hrecs]
  unfold Client.Run
  rw [h1, h2]
  simp [hm, hv]

/-- Shape of `Run` when the matching record is stale and the delete fails: the
cycle aborts with the wrapped delete error, the create step never
runs. -/
theorem Run_match_ne_delete_error (c : Client) (env : Env)
    (record ip : String) (recs : List Record) (m : Record)
    (t3 : List Ev) (e : String)
    (hip : (Client.ExtIP c env).2 = .ok ip)
    (hrecs : (Client.Records c env).2 = .ok recs)
    (hm : findMatch recs record = some m)
    (hne : m.value ≠ ip)
    (hdel : Client.Delete c env m.record m.value = (t3, .error e)) :
    Client.Run c env record =
      ([Ev.resolveReq, Ev.listReq] ++ t3,
       .error ("deleting A record " ++ record ++ ": " ++ e)) := by
  have h1 : Client.ExtIP c env = ([Ev.resolveReq], .ok ip) := by
    rw [ExtIP_fst, hip]
  have h2 : Client.Records c env = ([Ev.listReq], .ok recs) := by
    rw [Records_fst, hrecs]
  unfold Client.Run
  rw [h1, h2]
  simp [hm, hne, hdel]

/-- Shape of `Run` when the matching record is stale and the delete succeeds:
the create step follows the delete trace. -/
theorem Run_match_ne_delete_ok (c : Client) (env : Env)
    (record ip : String) (recs : List Record) (m : Record)
    (t3 : List Ev) (u : Unit)
    (hip : (Client.ExtIP c env).2 = .ok ip)
    (hrecs : (Client.Records c env).2 = .ok recs)
    (hm : findMatch recs record = some m)
    (hne : m.value ≠ ip)
    (hdel : Client.Delete c env m.record m.value = (t3, .ok u)) :
    Client.Run c env record =
      createStep c env record ip ([Ev.resolveReq, Ev.listReq] ++ t3) := by
  have h1 : Client.ExtIP c env = ([Ev.resolveReq], .ok ip) := by
    rw [ExtIP_fst, hip]
  have h2 : Client.Records c env = ([Ev.listReq], .ok recs) := by
    rw [Records_fst, hrecs]
  unfold Client.Run
  rw [h1, h2]
  simp [hm, hne, hdel]

/-! ## Claim theorems -/

/-- Claim C2: whenever the resolved IP and the listed records are
available and the first matching record's value equals the resolved IP,
`Run` returns `nil` having issued only the resolve and list requests —
zero mutating calls, the `NoOp` outcome. -/
theorem reconcile_noop (c : Client) (env : Env) (record ip : String)
    (recs : List Record) (m : Record)
    (hip : (Client.ExtIP c env).2 = .ok ip)
    (hrecs : (Client.Records c env).2 = .ok recs)
    (hm : findMatch recs record = some m)
    (hv : m.value = ip) :
    Client.Run c env record = ([Ev.resolveReq, Ev.listReq], .ok ()) := by
  have h1 : Client.ExtIP c env = ([Ev.resolveReq], .ok ip) := by
    rw [ExtIP_fst, hip]
  have h2 : Client.Records c env = ([Ev.listReq], .ok recs) := by
    rw [Records_fst, hrecs]
  unfold Client.Run
  rw [h1, h2]
  simp [hm, hv]

/-- Environment for the spec's `NoOp` scenario: the listed A record
already holds the resolved IP. -/
def envNoOp : Env :=
  ⟨.ok "1.2.3.4", .ok ⟨"success", "", .ok [⟨"A", "h.example.com", "1.2.3.4"⟩]⟩,
   .ok ⟨"success", "record_added"⟩, .ok ⟨"success", "record_removed"⟩⟩

/-- Witness for C2 at the spec's scenario. -/
theorem reconcile_noop_witness :
    Client.Run ⟨"tok", false⟩ envNoOp "h.example.com" =
      ([Ev.resolveReq, Ev.listReq], .ok ()) :=
  reconcile_noop ⟨"tok", false⟩ envNoOp "h.example.com" "1.2.3.4"
    [⟨"A", "h.example.com", "1.2.3.4"⟩] ⟨"A", "h.example.com", "1.2.3.4"⟩
    (by decide) (by decide) (by decide) (by decide)

/-- Claim C3: with the IP resolved and the records listed, when no
record matches (`Type == "A"` and the target hostname), `Run` emits the
resolve and list requests followed exactly by one `Create` invocation
with (hostname, resolved IP): exactly one create call, no delete call
or request anywhere, and `nil` (the `Created` outcome) when that create
succeeds. -/
theorem reconcile_create_only (c : Client) (env : Env) (record ip : String)
    (recs : List Record)
    (hip : (Client.ExtIP c env).2 = .ok ip)
    (hrecs : (Client.Records c env).2 = .ok recs)
    (hm : findMatch recs record = none) :
    (Client.Run c env record).1 =
        [Ev.resolveReq, Ev.listReq] ++ (Client.Create c env record ip).1 ∧
    (Client.Run c env record).1.count (Ev.createCall record ip) = 1 ∧
    (∀ r v, Ev.deleteCall r v ∉ (Client.Run c env record).1 ∧
            Ev.deleteReq r v ∉ (Client.Run c env record).1) ∧
    ((Client.Create c env record ip).2 = .ok () →
      (Client.Run c env record).2 = .ok ()) := by
  have h1 : Client.ExtIP c env = ([Ev.resolveReq], .ok ip) := by
    rw [ExtIP_fst, hip]
  have h2 : Client.Records c env = ([Ev.listReq], .ok recs) := by
    rw [Records_fst, hrecs]
  have hrun : Client.Run c env record =
      createStep c env record ip ([Ev.resolveReq] ++ [Ev.listReq]) := by
    unfold Client.Run
    rw [h1, h2]
    simp [hm]
  refine ⟨?_, ?_, ?_, ?_⟩
  · rw [hrun, createStep_fst]
    simp
  · rw [hrun, createStep_fst, Create_fst]
    cases hd : c.dryRun <;>
      simp [List.count_cons, List.count_append]
  · intro r v
    rw [hrun, createStep_fst, Create_fst]
    cases hd : c.dryRun <;> simp
  · intro h
    rw [hrun]
    exact createStep_ok c env record ip _ h

/-- Environment for the spec's `Created` scenario: the provider lists
no records at all. -/
def envEmptyList : Env :=
  ⟨.ok "1.2.3.4", .ok ⟨"success", "", .ok []⟩,
   .ok ⟨"success", "record_added"⟩, .ok ⟨"success", "record_removed"⟩⟩

/-- Witness for C3 at the spec's scenario. -/
theorem reconcile_create_only_witness :
    (Client.Run ⟨"tok", false⟩ envEmptyList "h.example.com").1 =
        [Ev.resolveReq, Ev.listReq] ++
          (Client.Create ⟨"tok", false⟩ envEmptyList "h.example.com" "1.2.3.4").1 ∧
    (Client.Run ⟨"tok", false⟩ envEmptyList "h.example.com").1.count
        (Ev.createCall "h.example.com" "1.2.3.4") = 1 ∧
    (∀ r v,
      Ev.deleteCall r v ∉ (Client.Run ⟨"tok", false⟩ envEmptyList "h.example.com").1 ∧
      Ev.deleteReq r v ∉ (Client.Run ⟨"tok", false⟩ envEmptyList "h.example.com").1) ∧
    ((Client.Create ⟨"tok", false⟩ envEmptyList "h.example.com" "1.2.3.4").2 = .ok () →
      (Client.Run ⟨"tok", false⟩ envEmptyList "h.example.com").2 = .ok ()) :=
  reconcile_create_only ⟨"tok", false⟩ envEmptyList "h.example.com" "1.2.3.4" []
    (by decide) (by decide) (by decide)

/-- Claim C7: with the IP resolved, when the provider's list response
decodes with a `result` other than `"success"`, `Run` fails with the
wrapped provider `reason` string and the cycle's trace is exactly the
resolve and list requests — no create or delete call follows. -/
theorem list_failure_aborts (c : Client) (env : Env) (record ip : String)
    (b : ListBody)
    (hip : (Client.ExtIP c env).2 = .ok ip)
    (hresp : env.listResp = .ok b)
    (hres : b.result ≠ "success") :
    Client.Run c env record =
      ([Ev.resolveReq, Ev.listReq],
       .error ("getting dns records from dreamhost: " ++ b.reason)) := by
  have h1 : Client.ExtIP c env = ([Ev.resolveReq], .ok ip) := by
    rw [ExtIP_fst, hip]
  have h2 : Client.Records c env = ([Ev.listReq], .error b.reason) := by
    rw [Records_fst]
    unfold Client.Records
    rw [hresp]
    simp [hres]
  unfold Client.Run
  rw [h1, h2]
  simp

/-- Environment for the list-failure scenario: the provider answers the
list request with `result = "error"` and a reason. -/
def envListFail : Env :=
  ⟨.ok "1.2.3.4", .ok ⟨"error", "no_such_account", .ok []⟩,
   .ok ⟨"success", "record_added"⟩, .ok ⟨"success", "record_removed"⟩⟩

/-- Witness for C7. -/
theorem list_failure_aborts_witness :
    Client.Run ⟨"tok", false⟩ envListFail "h.example.com" =
      ([Ev.resolveReq, Ev.listReq],
       .error "getting dns records from dreamhost: no_such_account") :=
  list_failure_aborts ⟨"tok", false⟩ envListFail "h.example.com" "1.2.3.4"
    ⟨"error", "no_such_account", .ok []⟩ (by decide) rfl (by decide)

/-- Claim C8: when the lookup service's body does not parse as an IP
address, `Run` fails with the wrapped resolve error and its trace is
exactly the one resolve request — the provider is never contacted (no
list, create or delete). -/
theorem invalid_ip_aborts (c : Client) (env : Env) (record body : String)
    (hresp : env.extIPResp = .ok body)
    (hparse : parseIP body.data = none) :
    Client.Run c env record =
      ([Ev.resolveReq],
       .error "checking our public IP address: invalid ip address: <nil>") := by
  have h1 : Client.ExtIP c env = ([Ev.resolveReq], .error "invalid ip address: <nil>") := by
    rw [ExtIP_fst]
    unfold Client.ExtIP
    rw [hresp]
    simp [hparse]
  unfold Client.Run
  rw [h1]
  simp

/-- Environment for the unparsable-body scenario of the spec. -/
def envBadIP : Env :=
  ⟨.ok "not-an-ip", .ok ⟨"success", "", .ok []⟩,
   .ok ⟨"success", "record_added"⟩, .ok ⟨"success", "record_removed"⟩⟩

/-- Witness for C8 at the spec's `"not-an-ip"` scenario. -/
theorem invalid_ip_aborts_witness :
    Client.Run ⟨"tok", false⟩ envBadIP "h.example.com" =
      ([Ev.resolveReq],
       .error "checking our public IP address: invalid ip address: <nil>") :=
  invalid_ip_aborts ⟨"tok", false⟩ envBadIP "h.example.com" "not-an-ip"
    rfl (by decide)

/-- Claim C10: every lookup body accepted by `net.ParseIP` — IPv6 as
well as IPv4 — makes `ExtIP` succeed, returning the canonical
`ip.String()` form of the parsed address (which may differ from the raw
body); only unparsable bodies are rejected. -/
theorem resolver_accepts_any_ip (c : Client) (env : Env) (body : String)
    (ipb : List Nat)
    (hresp : env.extIPResp = .ok body)
    (hparse : parseIP body.data = some ipb) :
    Client.ExtIP c env = ([Ev.resolveReq], .ok (ipString ipb)) := by
  unfold Client.ExtIP
  rw [hresp]
  simp [hparse]

/-- Environment whose lookup service answers with a non-canonical IPv6
body. -/
def envV6 : Env :=
  ⟨.ok "2001:0DB8::1", .ok ⟨"success", "", .ok []⟩,
   .ok ⟨"success", "record_added"⟩, .ok ⟨"success", "record_removed"⟩⟩

/-- Witness for C10: the IPv6 body `2001:0DB8::1` is accepted and
canonicalised to `2001:db8::1`, a different string than the body. -/
theorem resolver_accepts_any_ip_witness :
    Client.ExtIP ⟨"tok", false⟩ envV6 = ([Ev.resolveReq], .ok "2001:db8::1") ∧
    ("2001:db8::1" : String) ≠ "2001:0DB8::1" := by
  constructor
  · exact resolver_accepts_any_ip ⟨"tok", false⟩ envV6 "2001:0DB8::1"
      [0x20, 0x01, 0x0d, 0xb8, 0, 0, 0, 0, 0, 0, 0, 0, 0, 0, 0, 1]
      rfl (by decide)
  · decide

/-- Claim C4: the record scan selects the first record in list order
whose `Type` is `"A"` and whose `Record` is the target hostname:
earlier records of other kinds or hostnames are skipped, the value
plays no part in matching, and later matches are ignored. -/
theorem findMatch_first (pre post : List Record) (r : Record) (h : String)
    (hpre : ∀ r' ∈ pre, ¬(r'.type = "A" ∧ r'.record = h))
    (hr : r.type = "A" ∧ r.record = h) :
    findMatch (pre ++ r :: post) h = some r := by
  induction pre with
  | nil => simp [findMatch, hr]
  | cons p rest ih =>
    have hp := hpre p (by simp)
    simp only [List.cons_append, findMatch]
    rw [if_neg hp]
    exact ih (fun r' hr' => hpre r' (by simp [hr']))

/-- Witness for C4: a wrong-kind record with the right hostname and a
right-kind record with a wrong hostname are skipped, the first A match
wins regardless of its value, and the later A match is ignored. -/
theorem findMatch_first_witness :
    findMatch
      [⟨"MX", "h.example.com", "mail"⟩, ⟨"A", "other.example.com", "5.5.5.5"⟩,
       ⟨"A", "h.example.com", "9.9.9.9"⟩, ⟨"A", "h.example.com", "1.2.3.4"⟩]
      "h.example.com" = some ⟨"A", "h.example.com", "9.9.9.9"⟩ :=
  findMatch_first
    [⟨"MX", "h.example.com", "mail"⟩, ⟨"A", "other.example.com", "5.5.5.5"⟩]
    [⟨"A", "h.example.com", "1.2.3.4"⟩] ⟨"A", "h.example.com", "9.9.9.9"⟩
    "h.example.com" (by decide) (by decide)

/-- Claim C1: when the first matching record's value differs from the
resolved IP, any create in the cycle is strictly preceded in the trace
by the delete of the matched record's old value (explicit positions),
and when the delete fails, `Run` returns that error wrapped and no
create call or request is issued in the cycle. -/
theorem reconcile_delete_before_create (c : Client) (env : Env)
    (record ip : String) (recs : List Record) (m : Record)
    (hip : (Client.ExtIP c env).2 = .ok ip)
    (hrecs : (Client.Records c env).2 = .ok recs)
    (hm : findMatch recs record = some m)
    (hne : m.value ≠ ip) :
    ((Client.Delete c env m.record m.value).2 = .ok () →
      ∃ i j, i < j ∧
        (Client.Run c env record).1.get? i = some (Ev.deleteCall m.record m.value) ∧
        (Client.Run c env record).1.get? j = some (Ev.createCall record ip)) ∧
    (∀ e, (Client.Delete c env m.record m.value).2 = .error e →
      (Client.Run c env record).2 =
          .error ("deleting A record " ++ record ++ ": " ++ e) ∧
      ∀ r v, Ev.createCall r v ∉ (Client.Run c env record).1 ∧
             Ev.createReq r v ∉ (Client.Run c env record).1) := by
  rcases hdel : Client.Delete c env m.record m.value with ⟨t3, rdel⟩
  have ht3 : t3 = Ev.deleteCall m.record m.value ::
      (if c.dryRun then [] else [Ev.deleteReq m.record m.value]) := by
    have hf := Delete_fst c env m.record m.value
    rw [hdel] at hf
    exact hf
  constructor
  · intro hok
    have hu : rdel = .ok () := hok
    subst hu
    have hrun := Run_match_ne_delete_ok c env record ip recs m t3 ()
      hip hrecs hm hne hdel
    rw [hrun, createStep_fst, Create_fst, ht3]
    cases hd : c.dryRun
    · exact ⟨2, 4, by omega, rfl, rfl⟩
    · exact ⟨2, 3, by omega, rfl, rfl⟩
  · intro e he
    have hu : rdel = .error e := he
    subst hu
    have hrun := Run_match_ne_delete_error c env record ip recs m t3 e
      hip hrecs hm hne hdel
    rw [hrun]
    refine ⟨rfl, ?_⟩
    intro r v
    rw [ht3]
    cases hd : c.dryRun <;> simp

/-- Environment for the `Replaced` scenario with a failing delete: the
listed A record is stale and the provider rejects the removal. -/
def envDeleteFail : Env :=
  ⟨.ok "1.2.3.4", .ok ⟨"success", "", .ok [⟨"A", "h.example.com", "9.9.9.9"⟩]⟩,
   .ok ⟨"success", "record_added"⟩, .ok ⟨"error", "no_such_record"⟩⟩

/-- Witness for C1 at the delete-failure scenario: the cycle returns
the wrapped delete error and the trace holds no create event. -/
theorem reconcile_delete_before_create_witness :
    (Client.Run ⟨"tok", false⟩ envDeleteFail "h.example.com").2 =
        .error ("deleting A record h.example.com: record removal failed with error: no_such_record") ∧
    Ev.createCall "h.example.com" "1.2.3.4" ∉
        (Client.Run ⟨"tok", false⟩ envDeleteFail "h.example.com").1 ∧
    Ev.createReq "h.example.com" "1.2.3.4" ∉
        (Client.Run ⟨"tok", false⟩ envDeleteFail "h.example.com").1 := by
  have h := (reconcile_delete_before_create ⟨"tok", false⟩ envDeleteFail
      "h.example.com" "1.2.3.4" [⟨"A", "h.example.com", "9.9.9.9"⟩]
      ⟨"A", "h.example.com", "9.9.9.9"⟩
      (by decide) (by decide) (by decide) (by decide)).2
      "record removal failed with error: no_such_record" (by decide)
  exact ⟨h.1, (h.2 "h.example.com" "1.2.3.4").1, (h.2 "h.example.com" "1.2.3.4").2⟩

/-- Environment answering the create request the way the provider
reports an already-existing record: `result = "error"` with an
already-exists data string. -/
def envAlreadyExists : Env :=
  ⟨.ok "1.2.3.4", .ok ⟨"success", "", .ok []⟩,
   .ok ⟨"error", "record_already_exists_not_added"⟩,
   .ok ⟨"success", "record_removed"⟩⟩

/-- Counterexample to claim C5: on a provider response reporting the
creation already satisfied (`result` is `"error"`, data
`record_already_exists_not_added`), `Create` does not succeed — it
returns the non-success result as an error. -/
theorem create_already_exists_fails :
    (Client.Create ⟨"tok", false⟩ envAlreadyExists "h.example.com" "1.2.3.4").2 ≠
        .ok () ∧
    (Client.Create ⟨"tok", false⟩ envAlreadyExists "h.example.com" "1.2.3.4").2 =
        .error "record creation failed with error: record_already_exists_not_added" := by
  constructor
  · decide
  · decide

/-- Claim C5 (amended): outside dry-run mode, with a decoded provider
response, `Create` succeeds exactly when the response's `result` field
is `"success"`; any other result — including an already-exists report —
is returned as an error. -/
theorem create_ok_iff_success (c : Client) (env : Env)
    (record address : String) (r : ApiResult)
    (hdry : c.dryRun = false) (hresp : env.createResp = .ok r) :
    (Client.Create c env record address).2 = .ok () ↔ r.result = "success" := by
  simp only [Client.Create, hdry, hresp]
  by_cases hs : r.result = "success" <;> simp [hs]

/-- Witness for the amended C5. -/
theorem create_ok_iff_success_witness :
    (Client.Create ⟨"tok", false⟩ envNoOp "h.example.com" "1.2.3.4").2 = .ok () :=
  (create_ok_iff_success ⟨"tok", false⟩ envNoOp "h.example.com" "1.2.3.4"
    ⟨"success", "record_added"⟩ rfl rfl).mpr rfl

/-- Claim C6: with dry-run enabled, `Create` and `Delete` issue no
network request and return `nil` (they only report intent), `Run`'s
trace never contains a create or delete network request, the IP lookup
request is always issued, and the list request is issued whenever
resolution succeeded — exactly as without dry-run. -/
theorem dry_run_no_mutation (c : Client) (env : Env) (record : String)
    (hdry : c.dryRun = true) :
    (∀ r v, Client.Create c env r v = ([Ev.createCall r v], .ok ()) ∧
            Client.Delete c env r v = ([Ev.deleteCall r v], .ok ())) ∧
    (∀ r v, Ev.createReq r v ∉ (Client.Run c env record).1 ∧
            Ev.deleteReq r v ∉ (Client.Run c env record).1) ∧
    Ev.resolveReq ∈ (Client.Run c env record).1 ∧
    (∀ ip, (Client.ExtIP c env).2 = .ok ip →
      Ev.listReq ∈ (Client.Run c env record).1) := by
  have hops : ∀ r v,
      Client.Create c env r v = ([Ev.createCall r v], .ok ()) ∧
      Client.Delete c env r v = ([Ev.deleteCall r v], .ok ()) := by
    intro r v
    constructor <;> simp [Client.Create, Client.Delete, hdry]
  have htr : ((∃ e, (Client.ExtIP c env).2 = .error e) ∧
        (Client.Run c env record).1 = [Ev.resolveReq]) ∨
      (∃ tail, (Client.Run c env record).1 = Ev.resolveReq :: Ev.listReq :: tail ∧
        ∀ ev ∈ tail, (∃ r v, ev = Ev.createCall r v) ∨
                     (∃ r v, ev = Ev.deleteCall r v)) := by
    cases hipr : (Client.ExtIP c env).2 with
    | error e =>
      rw [Run_extip_error c env record e hipr]
      exact Or.inl ⟨⟨e, rfl⟩, rfl⟩
    | ok ip =>
      right
      cases hrecr : (Client.Records c env).2 with
      | error e =>
        rw [Run_records_error c env record ip e hipr hrecr]
        exact ⟨[], rfl, by simp⟩
      | ok recs =>
        cases hmr : findMatch recs record with
        | none =>
          rw [Run_no_match c env record ip recs hipr hrecr hmr,
            createStep_fst, Create_fst, hdry]
          refine ⟨[Ev.createCall record ip], by simp, ?_⟩
          intro ev hev
          simp at hev
          exact Or.inl ⟨record, ip, hev⟩
        | some m =>
          by_cases hv : m.value = ip
          · rw [Run_match_eq c env record ip recs m hipr hrecr hmr hv]
            exact ⟨[], rfl, by simp⟩
          · have hdel := (hops m.record m.value).2
            rw [Run_match_ne_delete_ok c env record ip recs m
                [Ev.deleteCall m.record m.value] () hipr hrecr hmr hv hdel,
              createStep_fst, Create_fst, hdry]
            refine ⟨[Ev.deleteCall m.record m.value, Ev.createCall record ip],
              by simp, ?_⟩
            intro ev hev
            simp at hev
            rcases hev with h | h
            · exact Or.inr ⟨m.record, m.value, h⟩
            · exact Or.inl ⟨record, ip, h⟩
  refine ⟨hops, ?_, ?_, ?_⟩
  · intro r v
    rcases htr with ⟨_, h⟩ | ⟨tail, htl, hev⟩
    · rw [h]
      constructor <;> simp
    · rw [htl]
      constructor
      · intro hmem
        simp at hmem
        rcases hev _ hmem with ⟨r', v', h⟩ | ⟨r', v', h⟩ <;> cases h
      · intro hmem
        simp at hmem
        rcases hev _ hmem with ⟨r', v', h⟩ | ⟨r', v', h⟩ <;> cases h
  · rcases htr with ⟨_, h⟩ | ⟨tail, htl, _⟩
    · rw [h]; simp
    · rw [htl]; simp
  · intro ip hipok
    rcases htr with ⟨⟨e, he⟩, _⟩ | ⟨tail, htl, _⟩
    · rw [hipok] at he
      cases he
    · rw [htl]; simp

/-- Environment for the dry-run witness: a stale record, and the
mutating endpoints unreachable — irrelevant, since dry-run must not
contact them. -/
def envDryStale : Env :=
  ⟨.ok "1.2.3.4", .ok ⟨"success", "", .ok [⟨"A", "h.example.com", "9.9.9.9"⟩]⟩,
   .netErr "unreachable", .netErr "unreachable"⟩

/-- Witness for C6: in dry-run, with a stale record and unreachable
mutating endpoints, `Create` reports intent only and succeeds, no
create request appears in the cycle trace, and the resolve and list
requests are both issued. -/
theorem dry_run_no_mutation_witness :
    Client.Create ⟨"tok", true⟩ envDryStale "h.example.com" "1.2.3.4" =
        ([Ev.createCall "h.example.com" "1.2.3.4"], .ok ()) ∧
    Ev.createReq "h.example.com" "1.2.3.4" ∉
        (Client.Run ⟨"tok", true⟩ envDryStale "h.example.com").1 ∧
    Ev.deleteReq "h.example.com" "9.9.9.9" ∉
        (Client.Run ⟨"tok", true⟩ envDryStale "h.example.com").1 ∧
    Ev.resolveReq ∈ (Client.Run ⟨"tok", true⟩ envDryStale "h.example.com").1 ∧
    Ev.listReq ∈ (Client.Run ⟨"tok", true⟩ envDryStale "h.example.com").1 := by
  have h := dry_run_no_mutation ⟨"tok", true⟩ envDryStale "h.example.com" rfl
  exact ⟨(h.1 "h.example.com" "1.2.3.4").1,
    (h.2.1 "h.example.com" "1.2.3.4").1,
    (h.2.1 "h.example.com" "9.9.9.9").2,
    h.2.2.1,
    h.2.2.2 "1.2.3.4" (by decide)⟩

/-- The ticker loop never calls `log.Fatal`. -/
theorem tickLoop_no_fatal (rest : List (Except String Unit)) (e : String) :
    SchedEv.fatalExit e ∉ tickLoop rest := by
  induction rest with
  | nil => simp [tickLoop]
  | cons r tail ih =>
    cases r <;> simp [tickLoop, ih]

/-- The ticker loop never exits the process. -/
theorem tickLoop_no_exit (rest : List (Except String Unit)) :
    SchedEv.exitZero ∉ tickLoop rest := by
  induction rest with
  | nil => simp [tickLoop]
  | cons r tail ih =>
    cases r <;> simp [tickLoop, ih]

/-- Every tick error is logged by the ticker loop. -/
theorem tickLoop_logs (rest : List (Except String Unit)) (e : String)
    (h : .error e ∈ rest) : SchedEv.logError e ∈ tickLoop rest := by
  induction rest with
  | nil => cases h
  | cons r tail ih =>
    rcases List.mem_cons.mp h with h1 | h1
    · rw [← h1]
      simp [tickLoop]
    · cases r <;> simp [tickLoop, ih h1]

/-- The ticker loop runs one cycle per tick outcome. -/
theorem tickLoop_count (rest : List (Except String Unit)) :
    (tickLoop rest).count SchedEv.runCycle = rest.length := by
  induction rest with
  | nil => simp [tickLoop]
  | cons r tail ih =>
    cases r <;> simp [tickLoop, List.count_cons, ih]

/-- Claim C9: `main` runs one reconcile cycle first, in both modes; an
error there is `log.Fatal` (non-zero exit) in both modes; with a
non-zero interval a successful first run is followed by the ticker
loop, in which every cycle's error is logged, no path exits the
process, and one cycle runs per tick. -/
theorem scheduler_first_fatal_then_logged (interval : Nat)
    (r0 : Except String Unit) (rest : List (Except String Unit)) :
    (mainSched interval (r0 :: rest)).head? = some SchedEv.runCycle ∧
    (∀ e, r0 = .error e →
      mainSched interval (r0 :: rest) = [SchedEv.runCycle, SchedEv.fatalExit e]) ∧
    (interval ≠ 0 → r0 = .ok () →
      mainSched interval (r0 :: rest) = SchedEv.runCycle :: tickLoop rest) ∧
    (∀ e, SchedEv.fatalExit e ∉ tickLoop rest) ∧
    SchedEv.exitZero ∉ tickLoop rest ∧
    (∀ e, .error e ∈ rest → SchedEv.logError e ∈ tickLoop rest) ∧
    (tickLoop rest).count SchedEv.runCycle = rest.length := by
  refine ⟨?_, ?_, ?_, fun e => tickLoop_no_fatal rest e, tickLoop_no_exit rest,
    fun e h => tickLoop_logs rest e h, tickLoop_count rest⟩
  · cases r0 with
    | error e => simp [mainSched]
    | ok u =>
      by_cases hi : interval = 0 <;> simp [mainSched, hi]
  · intro e he
    rw [he]
    simp [mainSched]
  · intro hi h0
    rw [h0]
    simp [mainSched, hi]

/-- Witness for C9: a failing single-shot first run is fatal, and in
interval mode a failing tick is logged while the loop keeps running. -/
theorem scheduler_first_fatal_then_logged_witness :
    mainSched 0 [.error "boom"] = [SchedEv.runCycle, SchedEv.fatalExit "boom"] ∧
    mainSched 900 [.ok (), .error "transient", .ok ()] =
      [SchedEv.runCycle, SchedEv.runCycle, SchedEv.logError "transient",
       SchedEv.runCycle] := by
  constructor
  · exact (scheduler_first_fatal_then_logged 0 (.error "boom") []).2.1 "boom" rfl
  · have h := (scheduler_first_fatal_then_logged 900 (.ok ())
      [.error "transient", .ok ()]).2.2.1 (by decide) rfl
    rw [h]
    rfl

end Dreamhost
